import Mathlib

/-
Verification development for the NYPC yacht-with-bidding decision engine
(src/1650.py, src/testing-tool-yacht-cli/main.py, src/testing-tool-yacht-cli/test2.py).
Python lists of dice values become List Nat; the per-team state class GameState becomes a
structure; assertion failures and exceptions become Except results; the one place the code
draws randomness (random.sample / random.choice) is modelled by an explicit argument.
-/

set_option maxHeartbeats 2000000
set_option maxRecDepth 20000

namespace YachtSpec

/-- DiceRule enum shared by src/1650.py, main.py and test2.py (values 0..11). -/
inductive DiceRule where
  | ONE
  | TWO
  | THREE
  | FOUR
  | FIVE
  | SIX
  | CHOICE
  | FOUR_OF_A_KIND
  | FULL_HOUSE
  | SMALL_STRAIGHT
  | LARGE_STRAIGHT
  | YACHT
deriving DecidableEq, Repr

/-- DiceRule.value of the Python enum. -/
def DiceRule.val : DiceRule → Nat
  | .ONE => 0
  | .TWO => 1
  | .THREE => 2
  | .FOUR => 3
  | .FIVE => 4
  | .SIX => 5
  | .CHOICE => 6
  | .FOUR_OF_A_KIND => 7
  | .FULL_HOUSE => 8
  | .SMALL_STRAIGHT => 9
  | .LARGE_STRAIGHT => 10
  | .YACHT => 11

/-- DiceRule(i) construction from an index, as used on unused-rule indices (0..11). -/
def DiceRule.fromIdx : Nat → DiceRule
  | 0 => .ONE
  | 1 => .TWO
  | 2 => .THREE
  | 3 => .FOUR
  | 4 => .FIVE
  | 5 => .SIX
  | 6 => .CHOICE
  | 7 => .FOUR_OF_A_KIND
  | 8 => .FULL_HOUSE
  | 9 => .SMALL_STRAIGHT
  | 10 => .LARGE_STRAIGHT
  | _ => .YACHT

/-- Python sum(d for d in dice if d == v). -/
def sumEq (dice : List Nat) (v : Nat) : Nat := (dice.filter (fun d => d == v)).sum

/-- GameState.calculate_score from src/1650.py (the identical function appears in
testing-tool-yacht-cli/main.py). -/
def calculate_score (rule : DiceRule) (dice : List Nat) : Nat :=
  match rule with
  | .ONE => sumEq dice 1 * 1000
  | .TWO => sumEq dice 2 * 1000
  | .THREE => sumEq dice 3 * 1000
  | .FOUR => sumEq dice 4 * 1000
  | .FIVE => sumEq dice 5 * 1000
  | .SIX => sumEq dice 6 * 1000
  | .CHOICE => dice.sum * 1000
  | .FOUR_OF_A_KIND =>
      if (List.range' 1 6).any (fun i => decide (4 ≤ dice.count i)) then dice.sum * 1000 else 0
  | .FULL_HOUSE =>
      let pair := (List.range' 1 6).any (fun i => dice.count i == 2 || dice.count i == 5)
      let triple := (List.range' 1 6).any (fun i => dice.count i == 3 || dice.count i == 5)
      if pair && triple then dice.sum * 1000 else 0
  | .SMALL_STRAIGHT =>
      let e := fun i => dice.count i != 0
      if (e 1 && e 2 && e 3 && e 4) || (e 2 && e 3 && e 4 && e 5) || (e 3 && e 4 && e 5 && e 6)
      then 15000 else 0
  | .LARGE_STRAIGHT =>
      let e := fun i => dice.count i != 0
      if (e 1 && e 2 && e 3 && e 4 && e 5) || (e 2 && e 3 && e 4 && e 5 && e 6)
      then 30000 else 0
  | .YACHT =>
      if (List.range' 1 6).any (fun i => dice.count i == 5) then 50000 else 0

/-- GameState.calculate_score from src/testing-tool-yacht-cli/test2.py (its FULL_HOUSE rule
demands an exact 3-count and an exact 2-count, and LARGE_STRAIGHT compares the sorted hand). -/
def calculate_score_test2 (rule : DiceRule) (dice : List Nat) : Nat :=
  let counts := (List.range' 1 6).map (fun i => dice.count i)
  match rule with
  | .ONE => dice.count 1 * 1 * 1000
  | .TWO => dice.count 2 * 2 * 1000
  | .THREE => dice.count 3 * 3 * 1000
  | .FOUR => dice.count 4 * 4 * 1000
  | .FIVE => dice.count 5 * 5 * 1000
  | .SIX => dice.count 6 * 6 * 1000
  | .CHOICE => dice.sum * 1000
  | .FOUR_OF_A_KIND =>
      if counts.any (fun c => decide (4 ≤ c)) then dice.sum * 1000 else 0
  | .FULL_HOUSE =>
      if 3 ∈ counts ∧ 2 ∈ counts then dice.sum * 1000 else 0
  | .SMALL_STRAIGHT =>
      if [1, 2, 3, 4].all (fun x => dice.contains x) || [2, 3, 4, 5].all (fun x => dice.contains x)
         || [3, 4, 5, 6].all (fun x => dice.contains x) then 15000 else 0
  | .LARGE_STRAIGHT =>
      let sorted := dice.insertionSort (· ≤ ·)
      if sorted = [1, 2, 3, 4, 5] ∨ sorted = [2, 3, 4, 5, 6] then 30000 else 0
  | .YACHT =>
      if counts.any (fun c => c == 5) then 50000 else 0

/-- Bid dataclass: group name ('A' or 'B') and amount. -/
structure Bid where
  group : String
  amount : Int
deriving DecidableEq, Repr

/-- DicePut dataclass: the rule and the dice list committed to it. -/
structure DicePut where
  rule : DiceRule
  dice : List Nat
deriving DecidableEq, Repr

/-- Per-team GameState of src/1650.py: held dice, 12 optional rule scores, bidding ledger. -/
structure GameState where
  dice : List Nat
  rule_score : List (Option Nat)
  bid_score : Int
deriving DecidableEq, Repr

/-- Fresh GameState (empty pool, 12 open rules, zero ledger). -/
def GameState.init : GameState := ⟨[], List.replicate 12 none, 0⟩

/-- Sum of the present entries of a list of optional scores. -/
def optSum (l : List (Option Nat)) : Nat := (l.filterMap id).sum

/-- GameState.get_total_score from src/1650.py: number-category subtotal, conditional 35000
bonus, combination subtotal, plus the bidding ledger. -/
def GameState.get_total_score (s : GameState) : Int :=
  let basic := optSum (s.rule_score.take 6)
  let bonus : Nat := if 63000 ≤ basic then 35000 else 0
  let combination := optSum ((s.rule_score.drop 6).take 6)
  (basic : Int) + (bonus : Int) + (combination : Int) + s.bid_score

/-- GameState.bid from src/1650.py: a successful bid costs its amount, a failed one earns it. -/
def GameState.bid (s : GameState) (is_successful : Bool) (amount : Int) : GameState :=
  if is_successful then { s with bid_score := s.bid_score - amount }
  else { s with bid_score := s.bid_score + amount }

/-- GameState.add_dice from src/1650.py. -/
def GameState.add_dice (s : GameState) (new_dice : List Nat) : GameState :=
  { s with dice := s.dice ++ new_dice }

/-- GameState.use_dice from src/1650.py: asserts the rule is open, then, for each committed
die, erases its first occurrence from the pool IF it is present and silently skips it
otherwise (the Python comment reads "if the die is absent, ignore instead of error"), and
finally stores calculate_score of the committed dice. -/
def GameState.use_dice (s : GameState) (put : DicePut) : Except String GameState :=
  if (s.rule_score.getD put.rule.val none).isNone then
    Except.ok { s with
      dice := put.dice.foldl (fun acc d => acc.erase d) s.dice,
      rule_score := s.rule_score.set put.rule.val (some (calculate_score put.rule put.dice)) }
  else Except.error "Rule already used"

/-- Strict removal used by test2.py: Python list.remove raises ValueError when the element is
absent. -/
def removeStrict (pool : List Nat) : List Nat → Except String (List Nat)
  | [] => Except.ok pool
  | d :: rest =>
      if d ∈ pool then removeStrict (pool.erase d) rest
      else Except.error "ValueError"

/-- GameState.use_dice from src/testing-tool-yacht-cli/test2.py: asserts the rule is open and
removes each committed die strictly (a missing die raises), then stores the test2 score. -/
def GameState.use_dice_test2 (s : GameState) (put : DicePut) : Except String GameState :=
  if (s.rule_score.getD put.rule.val none).isNone then
    match removeStrict s.dice put.dice with
    | Except.ok d2 =>
        Except.ok { s with
          dice := d2,
          rule_score :=
            s.rule_score.set put.rule.val (some (calculate_score_test2 put.rule put.dice)) }
    | Except.error e => Except.error e
  else Except.error "Rule already used"

/-- Game session state of src/1650.py (the wall-clock start_time used only for logging is
omitted; opponent_bids is the round-indexed dictionary of revealed opponent bids). -/
structure Game where
  my_state : GameState
  opp_state : GameState
  current_round : Nat
  opponent_bids : Nat → Option Int
  opponent_yacht_completed : Bool
  my_yacht_completed : Bool

/-- Game.save_opponent_bid from src/1650.py (dictionary assignment). -/
def Game.save_opponent_bid (g : Game) (round_num : Nat) (bid_amount : Int) : Game :=
  { g with opponent_bids := fun r => if r = round_num then some bid_amount else g.opponent_bids r }

/-- Game.update_get from src/1650.py: record the opponent bid, distribute the two dice groups
by the awarded group name, then settle both ledgers through GameState.bid, each side judged
against its own awarded group. -/
def Game.update_get (g : Game) (dice_a dice_b : List Nat) (my_bid opp_bid : Bid)
    (my_group : String) : Game :=
  let g1 := g.save_opponent_bid g.current_round opp_bid.amount
  let ms0 := if my_group = "A" then g1.my_state.add_dice dice_a else g1.my_state.add_dice dice_b
  let os0 := if my_group = "A" then g1.opp_state.add_dice dice_b else g1.opp_state.add_dice dice_a
  let ms := ms0.bid (my_bid.group == my_group) my_bid.amount
  let opp_group := if my_group = "A" then "B" else "A"
  let os := os0.bid (opp_bid.group == opp_group) opp_bid.amount
  { g1 with my_state := ms, opp_state := os }

/-- Maximum of f over a list, with 0 as the running start (the shape of every best-score loop
in the sources). -/
def foldMax (f : α → Nat) (l : List α) : Nat := l.foldl (fun b x => max b (f x)) 0

/-- The double loop of GameState.calculate_potential_score in test2.py: best score over all
(hand, rule) pairs, starting from 0. -/
def bestOver (hands : List (List Nat)) (rules : List DiceRule) : Nat :=
  hands.foldl (fun best h => rules.foldl (fun b r => max b (calculate_score_test2 r h)) best) 0

/-- itertools.combinations(dice_pool, min(len, 5)) as the order-preserving length-k sublists. -/
def allCombos (pool : List Nat) : List (List Nat) :=
  List.sublistsLen (min pool.length 5) pool

/-- GameState.calculate_potential_score from test2.py. The result of
random.sample(all_combinations, 300), taken when more than 300 combinations exist, is the
injected argument `sample`. -/
def calculate_potential_score (pool : List Nat) (rules : List DiceRule)
    (sample : List (List Nat)) : Nat :=
  let all := allCombos pool
  let hands := if 300 < all.length then sample else all
  bestOver hands rules

/-- Modelled from the spec: the claim quantifies over an "allowed sample budget", which the
source fixes to the constant 300; this is calculate_potential_score with that constant made a
parameter (everything else is unchanged). -/
def calculate_potential_score_budget (budget : Nat) (pool : List Nat) (rules : List DiceRule)
    (sample : List (List Nat)) : Nat :=
  let all := allCombos pool
  let hands := if budget < all.length then sample else all
  bestOver hands rules

/-- Modelled from the spec: the true exhaustive maximum over all size-min(len,5) sub-multisets
of the pool and all open categories. -/
def exhaustiveMax (pool : List Nat) (rules : List DiceRule) : Nat :=
  bestOver (allCombos pool) rules

/-- Game.calculate_rule_potential_score from src/testing-tool-yacht-cli/main.py. Its YACHT
branch is guarded by "and not self.my_yacht_completed", and its FULL_HOUSE branch takes the
first value with count at least 3 and then looks for a pair among the other values only, so
it rejects a five-of-a-kind. Unmatched cases fall to the trailing return 0. -/
def calc_rule_pot_main (myYachtCompleted : Bool) (dice : List Nat) (rule : DiceRule) : Nat :=
  match rule with
  | .ONE => sumEq dice 1 * 1000
  | .TWO => sumEq dice 2 * 1000
  | .THREE => sumEq dice 3 * 1000
  | .FOUR => sumEq dice 4 * 1000
  | .FIVE => sumEq dice 5 * 1000
  | .SIX => sumEq dice 6 * 1000
  | .CHOICE => dice.sum * 1000
  | .FOUR_OF_A_KIND =>
      if (List.range' 1 6).any (fun i => decide (4 ≤ dice.count i)) then dice.sum * 1000 else 0
  | .YACHT =>
      if !myYachtCompleted && (List.range' 1 6).any (fun i => dice.count i == 5)
      then 50000 else 0
  | .FULL_HOUSE =>
      match (List.range' 1 6).find? (fun i => decide (3 ≤ dice.count i)) with
      | none => 0
      | some t =>
          let remaining := dice.filter (fun d => d != t)
          if (List.range' 1 6).any (fun i => decide (2 ≤ remaining.count i))
          then dice.sum * 1000 else 0
  | .SMALL_STRAIGHT =>
      let e := fun i => dice.count i != 0
      if (e 1 && e 2 && e 3 && e 4) || (e 2 && e 3 && e 4 && e 5) || (e 3 && e 4 && e 5 && e 6)
      then 15000 else 0
  | .LARGE_STRAIGHT =>
      let e := fun i => dice.count i != 0
      if (e 1 && e 2 && e 3 && e 4 && e 5) || (e 2 && e 3 && e 4 && e 5 && e 6)
      then 30000 else 0

/-- Index 5-tuples produced by the five nested loops of
Game.calculate_highest_possible_score_for_last_turn in main.py
(i < j < k < l < m, each below the list length). -/
def idxTuples (n : Nat) : List (List Nat) :=
  (List.range (n - 4)).flatMap (fun i =>
    (List.range' (i + 1) (n - 3 - (i + 1))).flatMap (fun j =>
      (List.range' (j + 1) (n - 2 - (j + 1))).flatMap (fun k =>
        (List.range' (k + 1) (n - 1 - (k + 1))).flatMap (fun l =>
          (List.range' (l + 1) (n - (l + 1))).map (fun m => [i, j, k, l, m])))))

/-- Values of a list at a list of indices (dice_for_rule1 in main.py). -/
def pickIdx (combined : List Nat) (t : List Nat) : List Nat :=
  t.map (fun idx => combined.getD idx 0)

/-- Values of a list at all indices not in t, in order (dice_for_rule2 in main.py, built via
enumerate and an "idx not in" filter). -/
def dropIdx (combined : List Nat) (t : List Nat) : List Nat :=
  (combined.enum.filter (fun p => !(t.contains p.1))).map Prod.snd

/-- The still-open rules of a score board, in index order (the remaining_rules loops of
main.py). -/
def remainingRules (rule_score : List (Option Nat)) : List DiceRule :=
  ((List.range 12).filter (fun i => (rule_score.getD i none).isNone)).map DiceRule.fromIdx

/-- Game.calculate_highest_possible_score_for_last_turn from main.py: with exactly two open
rules, the best over all ways of assigning an index 5-subset of pool ++ group to the first
open rule and the complement to the second, scored by calc_rule_pot_main; otherwise 0. -/
def calculate_highest_possible_score_for_last_turn (rule_score : List (Option Nat))
    (my_dice : List Nat) (myYachtCompleted : Bool) (dice_group : List Nat) : Nat :=
  let combined := my_dice ++ dice_group
  match remainingRules rule_score with
  | [rule1, rule2] =>
      (idxTuples combined.length).foldl
        (fun best t =>
          max best
            (calc_rule_pot_main myYachtCompleted (pickIdx combined t) rule1
              + calc_rule_pot_main myYachtCompleted (dropIdx combined t) rule2)) 0
  | _ => 0

/-- Modelled from the spec: the exact maximum over every split of the combined dice into an
index 5-subset and its complement, with both assignments of the two open categories to the
two hands, for an arbitrary per-hand scoring function. -/
def exactSplitMax (score : DiceRule → List Nat → Nat) (combined : List Nat)
    (r1 r2 : DiceRule) : Nat :=
  foldMax
    (fun t =>
      max (score r1 (pickIdx combined t) + score r2 (dropIdx combined t))
        (score r2 (pickIdx combined t) + score r1 (dropIdx combined t)))
    (List.sublistsLen 5 (List.range combined.length))

/-- Complement of an index subset inside range 10. -/
def complT (t : List Nat) : List Nat := (List.range 10).filter (fun i => !(t.contains i))

/-- Game.calculate_rule_potential_score from src/1650.py: the same if-elif chain of cases as
GameState.calculate_score, with a trailing default of 0. -/
def calc_rule_pot (dice : List Nat) (rule : DiceRule) : Nat :=
  match rule with
  | .ONE => sumEq dice 1 * 1000
  | .TWO => sumEq dice 2 * 1000
  | .THREE => sumEq dice 3 * 1000
  | .FOUR => sumEq dice 4 * 1000
  | .FIVE => sumEq dice 5 * 1000
  | .SIX => sumEq dice 6 * 1000
  | .CHOICE => dice.sum * 1000
  | .FOUR_OF_A_KIND =>
      if (List.range' 1 6).any (fun i => decide (4 ≤ dice.count i)) then dice.sum * 1000 else 0
  | .FULL_HOUSE =>
      let has_pair := (List.range' 1 6).any (fun i => dice.count i == 2 || dice.count i == 5)
      let has_triple := (List.range' 1 6).any (fun i => dice.count i == 3 || dice.count i == 5)
      if has_pair && has_triple then dice.sum * 1000 else 0
  | .SMALL_STRAIGHT =>
      let e := fun i => dice.count i != 0
      if (e 1 && e 2 && e 3 && e 4) || (e 2 && e 3 && e 4 && e 5) || (e 3 && e 4 && e 5 && e 6)
      then 15000 else 0
  | .LARGE_STRAIGHT =>
      let e := fun i => dice.count i != 0
      if (e 1 && e 2 && e 3 && e 4 && e 5) || (e 2 && e 3 && e 4 && e 5 && e 6)
      then 30000 else 0
  | .YACHT =>
      if (List.range' 1 6).any (fun i => dice.count i == 5) then 50000 else 0

/-- Repeated Python list.remove of the same value (removes the first occurrence each time). -/
def removeN (l : List Nat) (v : Nat) : Nat → List Nat
  | 0 => l
  | n + 1 => removeN (l.erase v) v n

/-- Python loop "while len(dice) < 5 and temp_dice: dice.append(temp_dice.pop(0))". -/
def fillFrom (dice temp : List Nat) : List Nat × List Nat :=
  (dice ++ temp.take (5 - dice.length), temp.drop (5 - dice.length))

/-- Python loop "while len(dice) < 5 and 6 in temp_dice: dice.append(6); temp_dice.remove(6)";
the loop runs at most five times, so five units of fuel are always enough. -/
def fillSixes (fuel : Nat) (dice temp : List Nat) : List Nat × List Nat :=
  match fuel with
  | 0 => (dice, temp)
  | fuel + 1 =>
      if dice.length < 5 ∧ 6 ∈ temp then fillSixes fuel (dice ++ [6]) (temp.erase 6)
      else (dice, temp)

/-- Python loop "while len(dice) < 5 and unique_dice: selected = unique_dice.pop(0);
if selected in temp_dice: dice.append(selected); temp_dice.remove(selected)". -/
def fillUniques (dice temp : List Nat) : List Nat → List Nat × List Nat
  | [] => (dice, temp)
  | u :: rest =>
      if dice.length < 5 then
        if u ∈ temp then fillUniques (dice ++ [u]) (temp.erase u) rest
        else fillUniques dice temp rest
      else (dice, temp)

/-- Python loop "for num in sequence: if num in temp_dice: target_dice.append(num);
temp_dice.remove(num)", returning the collected dice and the leftover pool. -/
def pickSeq (seq : List Nat) (temp : List Nat) : List Nat × List Nat :=
  seq.foldl
    (fun (acc : List Nat × List Nat) num =>
      if num ∈ acc.2 then (acc.1 ++ [num], acc.2.erase num) else acc)
    ([], temp)

/-- Game.find_optimal_dice_for_rule from src/1650.py, branch part. A none result models the
Python paths that fall through to the shared fallback at the bottom of the function. -/
def find_optimal_branch (st : GameState) (current_round : Nat)
    (sorted_dice_unique sorted_dice : List Nat) (rule : DiceRule) :
    Option (List Nat × Nat) :=
  let my_dice := st.dice
  match rule with
  | .ONE | .TWO | .THREE | .FOUR | .FIVE | .SIX =>
      let target_number := rule.val + 1
      let target_count := my_dice.count target_number
      if 0 < target_count then
        let k := min 5 target_count
        let dice0 := List.replicate k target_number
        let temp0 := removeN my_dice target_number k
        let high_rules_available :=
          (st.rule_score.getD 7 none).isNone || (st.rule_score.getD 8 none).isNone
        let step1 :=
          if high_rules_available ∧ 6 ∈ temp0 then fillSixes 5 dice0 temp0 else (dice0, temp0)
        let uniques :=
          ((temp0.dedup.filter
              (fun v => temp0.count v == 1 && step1.2.contains v)).insertionSort (· ≤ ·))
        let step2 := fillUniques step1.1 step1.2 uniques
        let straights_completed :=
          (st.rule_score.getD 10 none).isSome ∧ (st.rule_score.getD 9 none).isSome
        let step3 :=
          if straights_completed then fillFrom step2.1 (step2.2.insertionSort (· ≤ ·))
          else fillFrom step2.1 step2.2
        let dice := step3.1 ++ List.replicate (5 - step3.1.length) 0
        some (dice, calc_rule_pot dice rule)
      else none
  | .CHOICE =>
      if 10 ≤ current_round then
        let dice := sorted_dice.take 5
        some (dice, calc_rule_pot dice .CHOICE)
      else some ([0, 0, 0, 0, 0], 0)
  | .FOUR_OF_A_KIND =>
      if current_round ≤ 8 then
        match (List.range' 4 3).find? (fun num => decide (4 ≤ my_dice.count num)) with
        | some num =>
            let temp := removeN my_dice num 4
            let target := List.replicate 4 num ++ [temp.headD num]
            some (target, calc_rule_pot target .FOUR_OF_A_KIND)
        | none => some ([0, 0, 0, 0, 0], 0)
      else
        match (List.range' 1 6).find? (fun num => decide (4 ≤ my_dice.count num)) with
        | some num =>
            let temp := removeN my_dice num 4
            let target := List.replicate 4 num ++ [temp.headD num]
            some (target, calc_rule_pot target .FOUR_OF_A_KIND)
        | none => none
  | .FULL_HOUSE =>
      let pred := fun (p : Nat × Nat) =>
        decide (3 ≤ my_dice.count p.1) && (p.2 != p.1) && decide (2 ≤ my_dice.count p.2)
      if current_round ≤ 8 then
        match ((List.range' 4 3).flatMap
            (fun n1 => (List.range' 4 3).map (fun n2 => (n1, n2)))).find? pred with
        | some p =>
            let target := List.replicate 3 p.1 ++ List.replicate 2 p.2
            some (target, calc_rule_pot target .FULL_HOUSE)
        | none => some ([0, 0, 0, 0, 0], 0)
      else
        match ((List.range' 1 6).flatMap
            (fun n1 => (List.range' 1 6).map (fun n2 => (n1, n2)))).find? pred with
        | some p =>
            let target := List.replicate 3 p.1 ++ List.replicate 2 p.2
            some (target, calc_rule_pot target .FULL_HOUSE)
        | none => none
  | .SMALL_STRAIGHT =>
      let sequences := [[1, 2, 3, 4], [2, 3, 4, 5], [3, 4, 5, 6]]
      match sequences.find? (fun seq => seq.all (fun x => sorted_dice_unique.contains x)) with
      | some seq =>
          let picked := pickSeq seq my_dice
          let fifth :=
            match picked.2 with
            | f :: _ => f
            | [] => if seq.getLastD 0 < 6 then seq.getLastD 0 + 1 else seq.headD 0 - 1
          let target := picked.1 ++ [fifth]
          some (target, calc_rule_pot target .SMALL_STRAIGHT)
      | none =>
          let best := sequences.foldl
            (fun (acc : Option (List Nat) × Nat) seq =>
              let cnt := (seq.filter (fun x => sorted_dice_unique.contains x)).length
              if acc.2 < cnt then (some seq, cnt) else acc)
            (none, 0)
          if 1 ≤ best.2 then
            match best.1 with
            | some seq => some ((pickSeq seq my_dice).1, 0)
            | none => none
          else none
  | .LARGE_STRAIGHT =>
      if [1, 2, 3, 4, 5].all (fun x => sorted_dice_unique.contains x) then
        let target := (pickSeq [1, 2, 3, 4, 5] my_dice).1
        some (target, calc_rule_pot target .LARGE_STRAIGHT)
      else if [2, 3, 4, 5, 6].all (fun x => sorted_dice_unique.contains x) then
        let target := (pickSeq [2, 3, 4, 5, 6] my_dice).1
        some (target, calc_rule_pot target .LARGE_STRAIGHT)
      else none
  | .YACHT =>
      match (List.range' 1 6).find? (fun num => decide (5 ≤ my_dice.count num)) with
      | some num =>
          let target := List.replicate 5 num
          some (target, calc_rule_pot target .YACHT)
      | none => none

/-- Game.find_optimal_dice_for_rule from src/1650.py: the matched branch, or the shared
fallback (the first five held dice, or five zeros when fewer than five are held). -/
def find_optimal_dice_for_rule (st : GameState) (current_round : Nat)
    (sorted_dice_unique sorted_dice : List Nat) (rule : DiceRule) : List Nat × Nat :=
  match find_optimal_branch st current_round sorted_dice_unique sorted_dice rule with
  | some r => r
  | none =>
      let dice := if 5 ≤ st.dice.length then st.dice.take 5 else [0, 0, 0, 0, 0]
      (dice, calc_rule_pot dice rule)

/-- Game.should_use_rule_strategically from src/1650.py. -/
def should_use_rule_strategically (current_round : Nat) (rule : DiceRule) (score : Nat) :
    Bool :=
  match rule with
  | .YACHT => decide (0 < score)
  | .LARGE_STRAIGHT => decide (0 < score)
  | .SMALL_STRAIGHT => if 0 < score then true else decide (current_round ≤ 6)
  | .FOUR_OF_A_KIND => decide (0 < score)
  | .FULL_HOUSE =>
      if current_round ≤ 6 then decide (0 < score) && decide (4 ≤ current_round)
      else decide (0 < score)
  | .CHOICE => decide (10 ≤ current_round) && decide (0 < score)
  | .ONE | .TWO | .THREE | .FOUR | .FIVE | .SIX =>
      if 3000 ≤ score then true
      else if 1000 ≤ score then (if current_round ≤ 4 then false else true)
      else decide (8 ≤ current_round)

/-- Priority order of rule indices in Game.calculate_put of src/1650.py. -/
def priorityRules : List Nat := [11, 10, 9, 7, 8, 6, 5, 4, 3, 2, 1, 0]

/-- Game.calculate_put from src/1650.py: the cleanup branches for completed high-value rules,
then the priority-ordered strategic scan (with the special incomplete-straight override), then
the plain best-score scan, then the default. current_round and my_yacht_completed are the
relevant Game fields. -/
def calculate_put (st : GameState) (current_round : Nat) (my_yacht_completed : Bool) :
    DicePut :=
  let sdu := (st.dice.insertionSort (· ≤ ·)).dedup
  let sd := (st.dice.insertionSort (· ≤ ·)).reverse
  let unused := (List.range 12).filter (fun i => (st.rule_score.getD i none).isNone)
  let fo := fun (r : DiceRule) => find_optimal_dice_for_rule st current_round sdu sd r
  let high_value_rules_completed :=
    my_yacht_completed ∧ (st.rule_score.getD 10 none).isSome
      ∧ (st.rule_score.getD 9 none).isSome
  let cleanup : Option DicePut :=
    if high_value_rules_completed then
      match [1, 2, 3].find?
          (fun low => decide (3 ≤ st.dice.count low) && unused.contains (low - 1)) with
      | some low => some ⟨DiceRule.fromIdx (low - 1), (fo (DiceRule.fromIdx (low - 1))).1⟩
      | none => none
    else if my_yacht_completed then
      match [1, 2, 3].find?
          (fun low => decide (4 ≤ st.dice.count low) && unused.contains (low - 1)) with
      | some low => some ⟨DiceRule.fromIdx (low - 1), (fo (DiceRule.fromIdx (low - 1))).1⟩
      | none => none
    else none
  match cleanup with
  | some p => p
  | none =>
      let step := fun (acc : Option (DiceRule × List Nat) × Int) (ridx : Nat) =>
        if ridx ∈ unused then
          let rule := DiceRule.fromIdx ridx
          let dr := fo rule
          if should_use_rule_strategically current_round rule dr.2 then
            if (rule = .SMALL_STRAIGHT ∨ rule = .LARGE_STRAIGHT) ∧ dr.2 = 0 then
              match acc.1 with
              | none => (some (rule, dr.1), (dr.2 : Int))
              | some (br, bd) =>
                  if br ∉ ([.YACHT, .LARGE_STRAIGHT, .SMALL_STRAIGHT] : List DiceRule)
                      ∨ acc.2 = 0
                  then (some (rule, dr.1), (dr.2 : Int))
                  else (some (br, bd), acc.2)
            else if acc.2 < (dr.2 : Int) then (some (rule, dr.1), (dr.2 : Int)) else acc
          else acc
        else acc
      let acc1 := priorityRules.foldl step (none, (-1 : Int))
      let acc2 :=
        match acc1.1 with
        | some _ => acc1
        | none =>
            unused.foldl
              (fun acc ridx =>
                let rule := DiceRule.fromIdx ridx
                let dr := fo rule
                if acc.2 < (dr.2 : Int) then (some (rule, dr.1), (dr.2 : Int)) else acc)
              acc1
      match acc2.1 with
      | some rd => ⟨rd.1, rd.2⟩
      | none =>
          ⟨DiceRule.fromIdx (unused.headD 0),
            if 5 ≤ st.dice.length then st.dice.take 5 else [0, 0, 0, 0, 0]⟩

/-- Modelled from the spec: the FULL_HOUSE condition — the hand's value-count multiset
contains a 3-count and a 2-count of distinct values, a five-of-a-kind counting as both. -/
def fullHouseSpecHolds (dice : List Nat) : Prop :=
  (∃ a ∈ List.range' 1 6, ∃ b ∈ List.range' 1 6,
      a ≠ b ∧ dice.count a = 3 ∧ dice.count b = 2)
    ∨ (∃ a ∈ List.range' 1 6, dice.count a = 5)

instance (dice : List Nat) : Decidable (fullHouseSpecHolds dice) := by
  unfold fullHouseSpecHolds
  infer_instance

/-- Modelled from the spec: the filled number-category (ONE..SIX) subtotal of a board. -/
def numberSubtotal (s : GameState) : Nat := optSum (s.rule_score.take 6)

/-- Modelled from the spec: the filled remaining-category subtotal of a board. -/
def combinationSubtotal (s : GameState) : Nat := optSum ((s.rule_score.drop 6).take 6)

/-
General lemmas about the running-maximum folds used by the estimator and split-search code.
-/

theorem foldl_max_init (f : α → Nat) (l : List α) (init : Nat) :
    l.foldl (fun b x => max b (f x)) init = max init (foldMax f l) := by
  induction l generalizing init with
  | nil => simp [foldMax]
  | cons a t ih =>
      simp only [List.foldl_cons, foldMax]
      rw [ih, ih (max 0 (f a))]
      simp [Nat.max_assoc]

theorem foldMax_cons (f : α → Nat) (a : α) (t : List α) :
    foldMax f (a :: t) = max (f a) (foldMax f t) := by
  simp only [foldMax, List.foldl_cons]
  rw [foldl_max_init]
  simp [foldMax]

theorem le_foldMax {f : α → Nat} {l : List α} {x : α} (h : x ∈ l) : f x ≤ foldMax f l := by
  induction l with
  | nil => cases h
  | cons a t ih =>
      rw [foldMax_cons]
      rcases List.mem_cons.mp h with h1 | h1
      · subst h1; exact Nat.le_max_left _ _
      · exact Nat.le_trans (ih h1) (Nat.le_max_right _ _)

theorem foldMax_le {f : α → Nat} {l : List α} {B : Nat} (h : ∀ x ∈ l, f x ≤ B) :
    foldMax f l ≤ B := by
  induction l with
  | nil => simp [foldMax]
  | cons a t ih =>
      rw [foldMax_cons]
      exact Nat.max_le.mpr ⟨h a (List.mem_cons_self a t), ih (fun x hx => h x (List.mem_cons_of_mem a hx))⟩

theorem foldMax_mono_subset {f : α → Nat} {l1 l2 : List α} (h : ∀ x ∈ l1, x ∈ l2) :
    foldMax f l1 ≤ foldMax f l2 :=
  foldMax_le (fun x hx => le_foldMax (h x hx))

theorem bestOver_aux (rules : List DiceRule) (hands : List (List Nat)) (init : Nat) :
    hands.foldl (fun best h => rules.foldl (fun b r => max b (calculate_score_test2 r h)) best)
        init
      = hands.foldl (fun b h => max b (foldMax (fun r => calculate_score_test2 r h) rules))
          init := by
  induction hands generalizing init with
  | nil => rfl
  | cons a t ih =>
      simp only [List.foldl_cons]
      rw [foldl_max_init (fun r => calculate_score_test2 r a) rules init, ih]

theorem bestOver_eq (hands : List (List Nat)) (rules : List DiceRule) :
    bestOver hands rules
      = foldMax (fun h => foldMax (fun r => calculate_score_test2 r h) rules) hands :=
  bestOver_aux rules hands 0


/-
Lemmas specific to the index-subset enumeration of the last-turn split search.
-/

theorem enumFrom_filter_map (P : Nat → Bool) :
    ∀ (c : List Nat) (n : Nat),
      ((List.enumFrom n c).filter (fun p => P p.1)).map Prod.snd
        = ((List.range c.length).filter (fun i => P (n + i))).map (fun i => c.getD i 0) := by
  intro c
  induction c with
  | nil => intro n; simp
  | cons a tl ih =>
      intro n
      have h1 : List.enumFrom n (a :: tl) = (n, a) :: List.enumFrom (n + 1) tl := rfl
      rw [h1, List.length_cons, List.range_succ_eq_map, List.filter_cons, List.filter_cons]
      have h2 : (fun i => P (n + i)) ∘ Nat.succ = fun i => P ((n + 1) + i) := by
        funext i
        simp only [Function.comp]
        congr 1
        omega
      by_cases h : P n
      · simp only [h, Nat.add_zero, if_pos, List.map_cons, List.filter_map, h2, List.map_map]
        refine congrArg (List.cons a) ?_
        rw [ih (n + 1)]
        refine List.map_congr_left ?_
        intro i _
        rfl
      · simp only [h, Nat.add_zero, if_neg, Bool.false_eq_true, not_false_iff,
          List.filter_map, h2, List.map_map, ite_false]
        rw [ih (n + 1)]
        refine List.map_congr_left ?_
        intro i _
        rfl

theorem enum_filter_map (c : List Nat) (P : Nat → Bool) :
    ((c.enum.filter (fun p => P p.1)).map Prod.snd)
      = ((List.range c.length).filter P).map (fun i => c.getD i 0) := by
  have h := enumFrom_filter_map P c 0
  simpa using h

theorem pickIdx_complT (c : List Nat) (hc : c.length = 10) (t : List Nat) :
    pickIdx c (complT t) = dropIdx c t := by
  unfold pickIdx dropIdx complT
  rw [enum_filter_map c (fun i => !(t.contains i)), hc]

theorem dropIdx_complT (c : List Nat) (hc : c.length = 10) (t : List Nat)
    (ht : (List.range 10).filter (fun i => !((complT t).contains i)) = t) :
    dropIdx c (complT t) = pickIdx c t := by
  unfold dropIdx pickIdx
  rw [enum_filter_map c (fun i => !((complT t).contains i)), hc, ht]

theorem mem_sublists_of_mem_idxTuples :
    ∀ t ∈ idxTuples 10, t ∈ List.sublistsLen 5 (List.range 10) := by decide

theorem mem_idxTuples_of_mem_sublists :
    ∀ t ∈ List.sublistsLen 5 (List.range 10), t ∈ idxTuples 10 := by decide

theorem complT_mem_sublists : ∀ t ∈ List.sublistsLen 5 (List.range 10),
    complT t ∈ List.sublistsLen 5 (List.range 10) := by decide

theorem filter_complT_eq : ∀ t ∈ List.sublistsLen 5 (List.range 10),
    (List.range 10).filter (fun i => !((complT t).contains i)) = t := by decide

theorem foldMax_idx_exchange (f g : List Nat → Nat)
    (hfg : ∀ t ∈ List.sublistsLen 5 (List.range 10), g t = f (complT t)) :
    foldMax f (idxTuples 10)
      = foldMax (fun t => max (f t) (g t)) (List.sublistsLen 5 (List.range 10)) := by
  apply Nat.le_antisymm
  · apply foldMax_le
    intro t ht
    have h1 : t ∈ List.sublistsLen 5 (List.range 10) := mem_sublists_of_mem_idxTuples t ht
    have h2 := le_foldMax (f := fun t => max (f t) (g t)) h1
    exact Nat.le_trans (Nat.le_max_left (f t) (g t)) h2
  · apply foldMax_le
    intro t ht
    apply Nat.max_le.mpr
    refine ⟨le_foldMax (mem_idxTuples_of_mem_sublists t ht), ?_⟩
    rw [hfg t ht]
    exact le_foldMax (mem_idxTuples_of_mem_sublists (complT t) (complT_mem_sublists t ht))

/-- C1: on src/1650.py, GameState.use_dice does NOT reject a placement naming dice absent from
the pool: with pool [1,2,3,4,5] and a CHOICE placement of [6,6,6,6,6] it succeeds, removes
nothing, and stores calculate_score([6,6,6,6,6]) = 30000, while the test2.py variant raises
(list.remove fails) as the claim requires. -/
theorem c1_use_dice_silently_skips_missing_dice :
    GameState.use_dice ⟨[1, 2, 3, 4, 5], List.replicate 12 none, 0⟩
        ⟨DiceRule.CHOICE, [6, 6, 6, 6, 6]⟩
      = Except.ok ⟨[1, 2, 3, 4, 5],
          [none, none, none, none, none, none, some 30000, none, none, none, none, none], 0⟩
    ∧ GameState.use_dice_test2 ⟨[1, 2, 3, 4, 5], List.replicate 12 none, 0⟩
        ⟨DiceRule.CHOICE, [6, 6, 6, 6, 6]⟩
      = Except.error "ValueError" :=
  ⟨rfl, rfl⟩

/-- C2: counterexample — the claim asserts score(FULL_HOUSE, [2,2,2,2,2]) = 10000, but the
cited test2.py scorer gives 0 there (it requires an exact 3-count and an exact 2-count). -/
theorem c2_full_house_cex :
    calculate_score_test2 DiceRule.FULL_HOUSE [2, 2, 2, 2, 2] ≠ 10000 := by decide

/-- C2 (amended): for the 1650.py and main.py scorer the claim holds as stated — FULL_HOUSE
pays sum(hand)*1000 exactly when the count multiset has a 3-count and a distinct 2-count,
with a five-of-a-kind satisfying both, and [3,3,3,5,5] scores 19000 and [2,2,2,2,2] scores
10000; the test2.py scorer instead demands an exact 3-count and 2-count, so a five-of-a-kind
FULL_HOUSE scores 0 there. -/
theorem c2_full_house_scoring :
    (∀ dice : List Nat,
        calculate_score DiceRule.FULL_HOUSE dice
          = if fullHouseSpecHolds dice then dice.sum * 1000 else 0)
    ∧ calculate_score DiceRule.FULL_HOUSE [3, 3, 3, 5, 5] = 19000
    ∧ calculate_score DiceRule.FULL_HOUSE [2, 2, 2, 2, 2] = 10000
    ∧ calculate_score_test2 DiceRule.FULL_HOUSE [3, 3, 3, 5, 5] = 19000
    ∧ calculate_score_test2 DiceRule.FULL_HOUSE [2, 2, 2, 2, 2] = 0 := by
  refine ⟨?_, by decide, by decide, by decide, by decide⟩
  intro dice
  have key : ((List.range' 1 6).any (fun i => dice.count i == 2 || dice.count i == 5)
        && (List.range' 1 6).any (fun i => dice.count i == 3 || dice.count i == 5)) = true
      ↔ fullHouseSpecHolds dice := by
    simp only [Bool.and_eq_true, List.any_eq_true, Bool.or_eq_true, beq_iff_eq,
      fullHouseSpecHolds]
    constructor
    · rintro ⟨⟨i, hi, hp⟩, ⟨j, hj, ht⟩⟩
      rcases hp with hp2 | hp5
      · rcases ht with ht3 | ht5
        · refine Or.inl ⟨j, hj, i, hi, ?_, ht3, hp2⟩
          intro hij
          rw [hij] at ht3
          omega
        · exact Or.inr ⟨j, hj, ht5⟩
      · exact Or.inr ⟨i, hi, hp5⟩
    · rintro (⟨a, ha, b, hb, hne, h3, h2⟩ | ⟨a, ha, h5⟩)
      · exact ⟨⟨b, hb, Or.inl h2⟩, ⟨a, ha, Or.inl h3⟩⟩
      · exact ⟨⟨a, ha, Or.inr h5⟩, ⟨a, ha, Or.inr h5⟩⟩
  by_cases h : fullHouseSpecHolds dice
  · have hb := key.mpr h
    simp only [calculate_score, hb, if_true, h]
  · have hb : ((List.range' 1 6).any (fun i => dice.count i == 2 || dice.count i == 5)
        && (List.range' 1 6).any (fun i => dice.count i == 3 || dice.count i == 5)) = false := by
      rcases Bool.eq_false_or_eq_true (((List.range' 1 6).any
          (fun i => dice.count i == 2 || dice.count i == 5))
        && ((List.range' 1 6).any (fun i => dice.count i == 3 || dice.count i == 5))) with
        htr | hf
      · exact absurd (key.mp htr) h
      · exact hf
    simp only [calculate_score, hb, Bool.false_eq_true, if_false, h]

/-- C4: settling a bid through Game.update_get moves each agent's ledger by exactly the bid
amount — down when the bid's named group equals that agent's awarded group, up otherwise, so
amount 0 leaves it unchanged — and the rule is applied to the two agents independently. -/
theorem c4_bid_resolution :
    (∀ (s : GameState) (amount : Int), (s.bid true amount).bid_score = s.bid_score - amount)
    ∧ (∀ (s : GameState) (amount : Int), (s.bid false amount).bid_score = s.bid_score + amount)
    ∧ (∀ (s : GameState) (b : Bool), (s.bid b 0).bid_score = s.bid_score)
    ∧ (∀ (g : Game) (dice_a dice_b : List Nat) (my_bid opp_bid : Bid) (my_group : String),
        ((g.update_get dice_a dice_b my_bid opp_bid my_group).my_state.bid_score
            = if my_bid.group = my_group then g.my_state.bid_score - my_bid.amount
              else g.my_state.bid_score + my_bid.amount)
        ∧ ((g.update_get dice_a dice_b my_bid opp_bid my_group).opp_state.bid_score
            = if opp_bid.group = (if my_group = "A" then "B" else "A")
              then g.opp_state.bid_score - opp_bid.amount
              else g.opp_state.bid_score + opp_bid.amount)) := by
  refine ⟨fun s amount => rfl, fun s amount => rfl, ?_, ?_⟩
  · intro s b
    cases b <;> simp [GameState.bid]
  · intro g dice_a dice_b my_bid opp_bid my_group
    constructor
    · simp only [Game.update_get, Game.save_opponent_bid, GameState.bid, GameState.add_dice]
      by_cases h : my_bid.group = my_group <;>
        simp [h] <;> split <;> rfl
    · simp only [Game.update_get, Game.save_opponent_bid, GameState.bid, GameState.add_dice]
      by_cases h : opp_bid.group = (if my_group = "A" then "B" else "A") <;>
        simp [h] <;> split <;> rfl

/-- C5: GameState.get_total_score is exactly the filled number-category subtotal, plus 35000
when that subtotal reaches 63000 (62999 earns nothing, 63000 earns the bonus), plus the
filled remaining-category subtotal, plus the ledger; it depends only on the current
rule_score and bid_score. -/
theorem c5_total_score :
    (∀ s : GameState,
        s.get_total_score
          = (numberSubtotal s : Int)
            + (if 63000 ≤ numberSubtotal s then (35000 : Int) else 0)
            + (combinationSubtotal s : Int) + s.bid_score)
    ∧ (∀ s : GameState, numberSubtotal s = 62999 →
        s.get_total_score = 62999 + (combinationSubtotal s : Int) + s.bid_score)
    ∧ (∀ s : GameState, numberSubtotal s = 63000 →
        s.get_total_score = 63000 + 35000 + (combinationSubtotal s : Int) + s.bid_score)
    ∧ (∀ s t : GameState, s.rule_score = t.rule_score → s.bid_score = t.bid_score →
        s.get_total_score = t.get_total_score) := by
  have h1 : ∀ s : GameState,
      s.get_total_score
        = (numberSubtotal s : Int)
          + (if 63000 ≤ numberSubtotal s then (35000 : Int) else 0)
          + (combinationSubtotal s : Int) + s.bid_score := by
    intro s
    simp only [GameState.get_total_score, numberSubtotal, combinationSubtotal]
    by_cases h : 63000 ≤ optSum (s.rule_score.take 6) <;> simp [h]
  refine ⟨h1, ?_, ?_, ?_⟩
  · intro s hs
    rw [h1 s, hs]
    norm_num
  · intro s hs
    rw [h1 s, hs]
    norm_num
  · intro s t hrs hbs
    simp only [GameState.get_total_score, hrs, hbs]

/-- C5: witness — the bonus boundary applied at boards whose number subtotal is 62999 and
63000 respectively. -/
theorem c5_total_score_witness :
    (GameState.get_total_score ⟨[], [some 2999, some 6000, some 9000, some 12000, some 15000,
        some 18000, some 100, none, none, none, none, none], 5⟩
      = 62999 + (combinationSubtotal ⟨[], [some 2999, some 6000, some 9000, some 12000,
          some 15000, some 18000, some 100, none, none, none, none, none], 5⟩ : Int) + 5)
    ∧ (GameState.get_total_score ⟨[], [some 3000, some 6000, some 9000, some 12000, some 15000,
        some 18000, some 100, none, none, none, none, none], 5⟩
      = 63000 + 35000 + (combinationSubtotal ⟨[], [some 3000, some 6000, some 9000, some 12000,
          some 15000, some 18000, some 100, none, none, none, none, none], 5⟩ : Int) + 5) :=
  ⟨c5_total_score.2.1 _ (by decide), c5_total_score.2.2.1 _ (by decide)⟩

/-- C7: a stored category score is immutable — bid settlement and dice awards never touch the
board, a successful placement changes no other slot, and a placement naming an already-filled
rule fails with the "Rule already used" assertion instead of overwriting. -/
theorem c7_category_immutability :
    (∀ (s : GameState) (b : Bool) (amount : Int), (s.bid b amount).rule_score = s.rule_score)
    ∧ (∀ (s : GameState) (d : List Nat), (s.add_dice d).rule_score = s.rule_score)
    ∧ (∀ (s s2 : GameState) (put : DicePut), s.use_dice put = Except.ok s2 →
        ∀ (j : Nat) (v : Nat), j ≠ put.rule.val → s.rule_score.getD j none = some v →
          s2.rule_score.getD j none = some v)
    ∧ (∀ (s : GameState) (put : DicePut), (s.rule_score.getD put.rule.val none).isSome →
        s.use_dice put = Except.error "Rule already used") := by
  refine ⟨?_, fun s d => rfl, ?_, ?_⟩
  · intro s b amount
    cases b <;> rfl
  · intro s s2 put hok j v hj hv
    unfold GameState.use_dice at hok
    by_cases hopen : (s.rule_score.getD put.rule.val none).isNone
    · rw [if_pos hopen] at hok
      cases hok
      simpa [List.getD_eq_getElem?_getD, List.getElem?_set_ne (Ne.symm hj)] using hv
    · rw [if_neg hopen] at hok
      cases hok
  · intro s put hfilled
    unfold GameState.use_dice
    rw [if_neg]
    intro hnone
    rw [Option.isNone_iff_eq_none.mp hnone] at hfilled
    cases hfilled

/-- C7: witness — with ONE already stored at 5000, bid settlement and awards keep the board,
placing TWO keeps the ONE slot, and placing ONE again fails. -/
theorem c7_category_immutability_witness :
    ((GameState.bid ⟨[1, 2, 3, 4, 5], [some 5000, none, none, none, none, none, none, none,
        none, none, none, none], 7⟩ true 3).rule_score
      = [some 5000, none, none, none, none, none, none, none, none, none, none, none])
    ∧ ((GameState.add_dice ⟨[1, 2, 3, 4, 5], [some 5000, none, none, none, none, none, none,
        none, none, none, none, none], 7⟩ [6, 6]).rule_score
      = [some 5000, none, none, none, none, none, none, none, none, none, none, none])
    ∧ ((⟨[1, 3, 4, 5], [some 5000, some 2000, none, none, none, none, none, none, none, none,
        none, none], 7⟩ : GameState).rule_score.getD 0 none = some 5000)
    ∧ (GameState.use_dice ⟨[1, 2, 3, 4, 5], [some 5000, none, none, none, none, none, none,
        none, none, none, none, none], 7⟩ ⟨DiceRule.ONE, [1, 1, 1, 1, 1]⟩
      = Except.error "Rule already used") := by
  refine ⟨c7_category_immutability.1 _ true 3, c7_category_immutability.2.1 _ [6, 6], ?_, ?_⟩
  · exact c7_category_immutability.2.2.1
      ⟨[1, 2, 3, 4, 5], [some 5000, none, none, none, none, none, none, none, none, none,
        none, none], 7⟩
      ⟨[1, 3, 4, 5], [some 5000, some 2000, none, none, none, none, none, none, none, none,
        none, none], 7⟩
      ⟨DiceRule.TWO, [2]⟩ (by rfl) 0 5000 (by decide) (by decide)
  · exact c7_category_immutability.2.2.2 _ ⟨DiceRule.ONE, [1, 1, 1, 1, 1]⟩ (by decide)

/-- C10: every category score produced by either scorer is a multiple of 1000 (scores live in
Nat, so they are nonnegative by construction), keeping stored scores and the 63000 bonus
comparison on exact multiples of 1000. -/
theorem c10_scores_multiples_of_1000 (rule : DiceRule) (dice : List Nat) :
    1000 ∣ calculate_score rule dice ∧ 1000 ∣ calculate_score_test2 rule dice := by
  constructor <;> cases rule <;>
    simp only [calculate_score, calculate_score_test2] <;>
    first
      | exact dvd_mul_left 1000 _
      | (split <;> first | exact dvd_mul_left 1000 _ | decide)

/-- C3 (amended): the estimator never exceeds the true exhaustive maximum for any sample drawn
from the combination list (a safe lower bound), and it is monotone across sample budgets
whenever the smaller-budget sample is contained in the larger-budget one; for independent
random draws at different budgets monotonicity fails (see the counterexample). -/
theorem c3_estimator_bounds :
    (∀ (pool : List Nat) (rules : List DiceRule) (sample : List (List Nat)),
        (∀ h ∈ sample, h ∈ allCombos pool) →
        calculate_potential_score pool rules sample ≤ exhaustiveMax pool rules)
    ∧ (∀ (b1 b2 : Nat) (pool : List Nat) (rules : List DiceRule) (s1 s2 : List (List Nat)),
        b1 ≤ b2 → (∀ h ∈ s1, h ∈ s2) → (∀ h ∈ s2, h ∈ allCombos pool) →
        calculate_potential_score_budget b1 pool rules s1
          ≤ calculate_potential_score_budget b2 pool rules s2) := by
  constructor
  · intro pool rules sample hsub
    unfold calculate_potential_score exhaustiveMax
    by_cases h : 300 < (allCombos pool).length
    · simp only [h, if_true, bestOver_eq]
      exact foldMax_mono_subset hsub
    · simp only [h, if_false]
      exact Nat.le_refl _
  · intro b1 b2 pool rules s1 s2 hb hs12 hs2
    unfold calculate_potential_score_budget
    have hs1 : ∀ h ∈ s1, h ∈ allCombos pool := fun h hh => hs2 h (hs12 h hh)
    by_cases h2 : b2 < (allCombos pool).length
    · have h1 : b1 < (allCombos pool).length := Nat.lt_of_le_of_lt hb h2
      simp only [h1, h2, if_true, bestOver_eq]
      exact foldMax_mono_subset hs12
    · by_cases h1 : b1 < (allCombos pool).length
      · simp only [h1, h2, if_true, if_false, bestOver_eq]
        exact foldMax_mono_subset hs1
      · simp only [h1, h2, if_false]
        exact Nat.le_refl _

/-- C3: witness — the safe-bound half at pool [1,2,3,4,5] with CHOICE open and an empty
sample, and the nested-sample monotonicity half at budgets 1 ≤ 2. -/
theorem c3_estimator_bounds_witness :
    calculate_potential_score [1, 2, 3, 4, 5] [DiceRule.CHOICE] []
        ≤ exhaustiveMax [1, 2, 3, 4, 5] [DiceRule.CHOICE]
    ∧ calculate_potential_score_budget 1 [1, 2, 3, 4, 5] [DiceRule.CHOICE] []
        ≤ calculate_potential_score_budget 2 [1, 2, 3, 4, 5] [DiceRule.CHOICE] [] :=
  ⟨c3_estimator_bounds.1 [1, 2, 3, 4, 5] [DiceRule.CHOICE] [] (by decide),
    c3_estimator_bounds.2 1 2 [1, 2, 3, 4, 5] [DiceRule.CHOICE] [] [] (by decide) (by decide)
      (by decide)⟩

/-- C3: counterexample — samples at different budgets are independent draws, not nested: with
pool [1,1,1,1,1,2] (six 5-element combinations) and YACHT open, a valid 1-element sample at
budget 1 scores 50000 while a valid 2-element sample at budget 2 scores 0, so a larger sample
budget returns a strictly lower score. -/
theorem c3_budget_monotonicity_cex :
    [1, 1, 1, 1, 1] ∈ allCombos [1, 1, 1, 1, 1, 2]
    ∧ [1, 1, 1, 1, 2] ∈ allCombos [1, 1, 1, 1, 1, 2]
    ∧ calculate_potential_score_budget 2 [1, 1, 1, 1, 1, 2] [DiceRule.YACHT]
        [[1, 1, 1, 1, 2], [1, 1, 1, 1, 2]]
      < calculate_potential_score_budget 1 [1, 1, 1, 1, 1, 2] [DiceRule.YACHT]
        [[1, 1, 1, 1, 1]] := by
  refine ⟨by decide, by decide, by decide⟩

/-- C6 (amended): with exactly two open categories and ten combined dice, the last-turn
valuation equals the exact maximum over every split of the ten dice into two five-dice hands
with both category assignments — but of the hands' calculate_rule_potential_score values,
whose FULL_HOUSE case rejects a five-of-a-kind (and whose YACHT case pays 0 after yacht
completion), not of the placement scores of §4.1 (see the counterexample). -/
theorem c6_last_turn_split_exact (rule_score : List (Option Nat))
    (my_dice dice_group : List Nat) (myYC : Bool) (r1 r2 : DiceRule)
    (hrem : remainingRules rule_score = [r1, r2])
    (hlen : (my_dice ++ dice_group).length = 10) :
    calculate_highest_possible_score_for_last_turn rule_score my_dice myYC dice_group
      = exactSplitMax (fun r d => calc_rule_pot_main myYC d r) (my_dice ++ dice_group)
          r1 r2 := by
  have hL : calculate_highest_possible_score_for_last_turn rule_score my_dice myYC dice_group
      = foldMax (fun t => calc_rule_pot_main myYC (pickIdx (my_dice ++ dice_group) t) r1
          + calc_rule_pot_main myYC (dropIdx (my_dice ++ dice_group) t) r2) (idxTuples 10) := by
    unfold calculate_highest_possible_score_for_last_turn foldMax
    simp only [hrem, hlen]
  have hR : exactSplitMax (fun r d => calc_rule_pot_main myYC d r) (my_dice ++ dice_group)
        r1 r2
      = foldMax (fun t =>
          max (calc_rule_pot_main myYC (pickIdx (my_dice ++ dice_group) t) r1
                + calc_rule_pot_main myYC (dropIdx (my_dice ++ dice_group) t) r2)
              (calc_rule_pot_main myYC (pickIdx (my_dice ++ dice_group) t) r2
                + calc_rule_pot_main myYC (dropIdx (my_dice ++ dice_group) t) r1))
          (List.sublistsLen 5 (List.range 10)) := by
    unfold exactSplitMax
    simp only [hlen]
  rw [hL, hR]
  exact foldMax_idx_exchange
    (fun t => calc_rule_pot_main myYC (pickIdx (my_dice ++ dice_group) t) r1
      + calc_rule_pot_main myYC (dropIdx (my_dice ++ dice_group) t) r2)
    (fun t => calc_rule_pot_main myYC (pickIdx (my_dice ++ dice_group) t) r2
      + calc_rule_pot_main myYC (dropIdx (my_dice ++ dice_group) t) r1)
    (by
      intro t ht
      have hswap1 := pickIdx_complT (my_dice ++ dice_group) hlen t
      have hswap2 := dropIdx_complT (my_dice ++ dice_group) hlen t (filter_complT_eq t ht)
      simp only [hswap1, hswap2]
      exact Nat.add_comm _ _)

/-- C6: witness — the amended equality at a concrete board with CHOICE and FULL_HOUSE open,
pool [1,2,3,4,5] and candidate group [2,3,4,5,6]. -/
theorem c6_last_turn_split_exact_witness :
    calculate_highest_possible_score_for_last_turn
        [some 0, some 0, some 0, some 0, some 0, some 0, none, some 0, none, some 0, some 0,
          some 0] [1, 2, 3, 4, 5] false [2, 3, 4, 5, 6]
      = exactSplitMax (fun r d => calc_rule_pot_main false d r)
          ([1, 2, 3, 4, 5] ++ [2, 3, 4, 5, 6]) DiceRule.CHOICE DiceRule.FULL_HOUSE :=
  c6_last_turn_split_exact _ [1, 2, 3, 4, 5] [2, 3, 4, 5, 6] false DiceRule.CHOICE
    DiceRule.FULL_HOUSE (by decide) (by decide)

/-- C6: counterexample — with FULL_HOUSE and CHOICE the two open categories and ten fives as
pool plus group, the valuation returns 25000, while the exact maximum of the sums of actual
category scores (calculate_score of §4.1) over all splits and assignments is 50000, because a
five-of-a-kind FULL_HOUSE really scores sum*1000 at placement time but the valuation's
potential scorer values it 0. -/
theorem c6_last_turn_split_cex :
    calculate_highest_possible_score_for_last_turn
        [some 0, some 0, some 0, some 0, some 0, some 0, none, some 0, none, some 0, some 0,
          some 0] [5, 5, 5, 5, 5] false [5, 5, 5, 5, 5] = 25000
    ∧ exactSplitMax calculate_score ([5, 5, 5, 5, 5] ++ [5, 5, 5, 5, 5]) DiceRule.CHOICE
        DiceRule.FULL_HOUSE = 50000 := by
  constructor
  · rfl
  · rfl

/-- C9: at round 4 with ONE, TWO and THREE already filled and pool [1,1,2,2,3], the placement
optimizer takes the incomplete-small-straight deferral path and returns a DicePut holding
only the three straight dice [1,2,3] — fewer than five dice. -/
theorem c9_incomplete_straight_short_put :
    calculate_put ⟨[1, 1, 2, 2, 3], [some 2000, some 4000, some 3000, none, none, none, none,
        none, none, none, none, none], 0⟩ 4 false
      = ⟨DiceRule.SMALL_STRAIGHT, [1, 2, 3]⟩
    ∧ (calculate_put ⟨[1, 1, 2, 2, 3], [some 2000, some 4000, some 3000, none, none, none,
        none, none, none, none, none, none], 0⟩ 4 false).dice.length < 5 := by
  refine ⟨by rfl, by decide⟩

end YachtSpec
